import Mathlib

/-!
Shallow embedding of the iam-service-account-controller core:
the IAM manager (pkg/iam/aws.go), the error taxonomy
(pkg/iam/errors), and the reconciliation controller (controller.go).
External collaborators (the AWS IAM API and the Kubernetes lister)
are modelled as explicit oracles passed to each operation, and every
mutating call the code issues against the role store is recorded in
an explicit trace, so that theorems can speak about which API calls
a reconciliation performs.
-/

namespace SAIamRole

/-! ## Error taxonomy (pkg/iam/errors) -/

/-- Error code constants from the errors package. -/
def NotFoundErrorCode : String := "NotFound"

/-- Error code for a role that exists but is not managed by this controller. -/
def NotManagedErrorCode : String := "NotManaged"

/-- Catch-all error code. -/
def OtherErrorCode : String := "Other"

/-- The IAMError struct: a code and a message. -/
structure IAMError where
  code : String
  message : String
deriving Repr, DecidableEq

/-- A Go error value as seen through the error interface: its dynamic type
is either a direct pointer to IAMError, some wrapper holding an inner error
(as produced by error wrapping), or any other concrete error type carrying
a message. -/
inductive GoError where
  | iamError (e : IAMError)
  | wrapped (msg : String) (inner : GoError)
  | basic (msg : String)
deriving Repr, DecidableEq

/-- IsNotFound from the errors package: a direct type assertion
err.(*IAMError) followed by a comparison of Code with NotFoundErrorCode.
The assertion succeeds only when the dynamic type is exactly *IAMError,
never through unwrapping; a nil error (modelled as none) fails it too. -/
def IsNotFound : Option GoError → Bool
  | some (.iamError e) => e.code == NotFoundErrorCode
  | _ => false

/-! ## IAM data model and manager (pkg/iam/aws.go) -/

/-- An AWS tag: key and value (pointers in the source, always set). -/
structure Tag where
  key : String
  value : String
deriving Repr, DecidableEq

/-- An AWS IAM role as returned by GetRole: only its tag set matters
to the controller's logic. -/
structure Role where
  tags : List Tag
deriving Repr, DecidableEq

/-- Tag key recording which controller manages a role. -/
def managedByTagKey : String := "role.k8s.aws/managed-by"

/-- Tag key recording the originating cluster. -/
def clusterTagKey : String := "role.k8s.aws/cluster"

/-- Tag key recording the originating namespace/name. -/
def stackTagKey : String := "serviceaccount.k8s.aws/stack"

/-- The Manager's configuration fields (the AWS client is replaced by an
explicit oracle passed to each operation). -/
structure Manager where
  rolePrefix : String
  accountId : String
  oidcProvider : String
  clusterName : String
  controllerName : String
deriving Repr, DecidableEq

/-- Response of the raw AWS GetRole API call: the role, a NoSuchEntity
API error, or any other API error. -/
inductive GetRoleResponse where
  | found (r : Role)
  | noSuchEntity (msg : String)
  | apiError (msg : String)
deriving Repr, DecidableEq

/-- The AWS IAM client, modelled as an oracle: what GetRole returns for a
given role name, and whether delete/create calls fail (some errMsg) or
succeed (none). -/
structure AWSClient where
  getRole : String → GetRoleResponse
  deleteRoleErr : String → Option String
  createRoleErr : String → Option String

/-- A mutating call issued against the role store. -/
inductive ApiCall where
  | createRole (roleName : String) (policy : String) (tags : List Tag)
  | deleteRole (roleName : String)
deriving Repr, DecidableEq

/-- makeIAMRoleName: the fully qualified role name, (prefix_)namespace_name. -/
def Manager.makeIAMRoleName (m : Manager) (name ns : String) : String :=
  if m.rolePrefix = "" then ns ++ "_" ++ name
  else m.rolePrefix ++ "_" ++ ns ++ "_" ++ name

/-- makeAccessPolicy: the trust-policy document string, the Sprintf template
from the source with accountId, oidcProvider (twice), namespace and name
interpolated. -/
def Manager.makeAccessPolicy (m : Manager) (name ns : String) : String :=
  "\x7b\n  \"Version\": \"2012-10-17\",\n  \"Statement\": [\n    \x7b\n      \"Effect\": \"Allow\",\n      \"Principal\": \x7b\n        \"Federated\": \"arn:aws:iam::" ++
  m.accountId ++ ":oidc-provider/" ++ m.oidcProvider ++
  "\"\n      \x7d,\n      \"Action\": \"sts:AssumeRoleWithWebIdentity\",\n      \"Condition\": \x7b\n        \"StringEquals\": \x7b\n          \"" ++
  m.oidcProvider ++ ":sub\": \"system:serviceaccount:" ++ ns ++ ":" ++ name ++
  "\"\n        \x7d\n      \x7d\n    \x7d\n  ]\n\x7d"

/-- MakeRoleARN: the locally computed ARN for the role of a namespace/name. -/
def Manager.MakeRoleARN (m : Manager) (name ns : String) : String :=
  "arn:aws:iam::" ++ m.accountId ++ ":role/" ++ m.makeIAMRoleName name ns

/-- IsManaged: true iff some tag has the managed-by key and this
controller's name as value. -/
def Manager.IsManaged (m : Manager) (role : Role) : Bool :=
  role.tags.any (fun t => t.key == managedByTagKey && t.value == m.controllerName)

/-- GetRole: fetch the role for namespace/name; a NoSuchEntity API error
becomes an IAMError with code NotFound, any other API error becomes an
IAMError with code Other. -/
def Manager.GetRole (m : Manager) (c : AWSClient) (name ns : String) :
    Except GoError Role :=
  match c.getRole (m.makeIAMRoleName name ns) with
  | .found r => .ok r
  | .noSuchEntity msg => .error (.iamError ⟨NotFoundErrorCode, msg⟩)
  | .apiError msg => .error (.iamError ⟨OtherErrorCode, msg⟩)

/-- CreateRole: issue one CreateRole call with the computed trust policy and
the managed-by / stack / cluster tags; an API failure becomes an IAMError
with code Other. The returned list is the trace of mutating calls issued. -/
def Manager.CreateRole (m : Manager) (c : AWSClient) (name ns : String) :
    Option GoError × List ApiCall :=
  let roleName := m.makeIAMRoleName name ns
  let accessPolicy := m.makeAccessPolicy name ns
  let tags : List Tag :=
    [⟨managedByTagKey, m.controllerName⟩,
     ⟨stackTagKey, ns ++ "/" ++ name⟩,
     ⟨clusterTagKey, m.clusterName⟩]
  let call := ApiCall.createRole roleName accessPolicy tags
  match c.createRoleErr roleName with
  | some msg => (some (.iamError ⟨OtherErrorCode, msg⟩), [call])
  | none => (none, [call])

/-- DeleteRole: fetch the role; a NotFound fetch is success with nothing to
do; a fetched role that is not managed yields a NotManaged IAMError without
any delete call; otherwise one DeleteRole call is issued, a failure of which
becomes an IAMError with code Other. The returned list is the trace of
mutating calls issued. -/
def Manager.DeleteRole (m : Manager) (c : AWSClient) (name ns : String) :
    Option GoError × List ApiCall :=
  match m.GetRole c name ns with
  | .error e =>
    if IsNotFound (some e) then (none, [])
    else (some e, [])
  | .ok role =>
    if !(m.IsManaged role) then
      (some (.iamError ⟨NotManagedErrorCode, "Role not managed by controller"⟩), [])
    else
      let roleName := m.makeIAMRoleName name ns
      match c.deleteRoleErr roleName with
      | some msg => (some (.iamError ⟨OtherErrorCode, msg⟩), [ApiCall.deleteRole roleName])
      | none => (none, [ApiCall.deleteRole roleName])

/-! ## Controller (controller.go) -/

/-- Annotation key whose value "true" makes enqueueServiceAccount return early. -/
def managedAnnotationKey : String := "iamrole/managed"

/-- Annotation key carrying the declared role ARN. -/
def roleAnnotationKey : String := "eks.amazonaws.com/role-arn"

/-- A ServiceAccount's identity and annotations (ObjectMeta). -/
structure ServiceAccount where
  ns : String
  name : String
  annotations : List (String × String)
deriving Repr, DecidableEq

/-- MetaNamespaceKeyFunc from client-go: namespace/name, or just name when
the namespace is empty. -/
def metaNamespaceKeyFunc (sa : ServiceAccount) : String :=
  if sa.ns = "" then sa.name else sa.ns ++ "/" ++ sa.name

/-- enqueueServiceAccount: returns the key added to the workqueue, or none
when the event is ignored. The source first returns early when the
managed annotation is present with value "true", then enqueues iff the
role-arn annotation is present and equals the locally recomputed ARN. -/
def enqueueServiceAccount (m : Manager) (sa : ServiceAccount) : Option String :=
  if sa.annotations.lookup managedAnnotationKey = some "true" then none
  else
    match sa.annotations.lookup roleAnnotationKey with
    | some v =>
      if v = m.MakeRoleARN sa.name sa.ns then some (metaNamespaceKeyFunc sa)
      else none
    | none => none

/-- Character-list splitting on slashes (the behavior of strings.Split on
"/" used by SplitMetaNamespaceKey). -/
def splitOnSlash : List Char → List (List Char)
  | [] => [[]]
  | c :: cs =>
    let rest := splitOnSlash cs
    if c = '/' then [] :: rest
    else
      match rest with
      | [] => [[c]]
      | r :: rs => (c :: r) :: rs

/-- SplitMetaNamespaceKey from client-go: one part means an empty namespace,
two parts mean namespace and name, anything else is an error (none). -/
def splitMetaNamespaceKey (key : String) : Option (String × String) :=
  match splitOnSlash key.data with
  | [n] => some ("", String.mk n)
  | [nsp, n] => some (String.mk nsp, String.mk n)
  | _ => none

/-- What the ServiceAccount lister returns for a namespace/name: the
resource, a NotFound error, or some other error. -/
inductive ListerResult where
  | found (sa : ServiceAccount)
  | notFound
  | otherErr (msg : String)
deriving Repr

/-- syncHandler: reconcile one key. Returns the error handed back to
processNextWorkItem (none means success) together with the trace of
mutating role-store calls issued during this invocation. A key that
cannot be split is handled by returning nil after logging. Event-recorder
calls are observability only and are not modelled. -/
def syncHandler (m : Manager) (c : AWSClient)
    (lister : String → String → ListerResult) (key : String) :
    Option GoError × List ApiCall :=
  match splitMetaNamespaceKey key with
  | none => (none, [])
  | some (nsp, name) =>
    match lister nsp name with
    | .notFound => m.DeleteRole c name nsp
    | .otherErr msg => (some (.basic msg), [])
    | .found _ =>
      match m.GetRole c name nsp with
      | .error e =>
        if IsNotFound (some e) then m.CreateRole c name nsp
        else (some e, [])
      | .ok _ => (none, [])

/-- A workqueue item: the string key it should be, or anything else. -/
inductive WorkItem where
  | str (key : String)
  | nonString
deriving Repr, DecidableEq

/-- What processNextWorkItem does to the queue for an item. -/
inductive QueueOp where
  | forget
  | addRateLimited (key : String)
deriving Repr, DecidableEq

/-- processNextWorkItem's queue decision: a non-string item is Forgotten;
a key whose syncHandler returns an error is re-added rate limited; a key
whose syncHandler returns nil is Forgotten. -/
def processNextWorkItem (m : Manager) (c : AWSClient)
    (lister : String → String → ListerResult) (item : WorkItem) : QueueOp :=
  match item with
  | .nonString => .forget
  | .str key =>
    match (syncHandler m c lister key).1 with
    | some _ => .addRateLimited key
    | none => .forget

/-! ## Spec-side policy document model (for the refinement claim about
makeAccessPolicy) -/

/-- Modelled from the spec: one statement of a trust-policy document — an
effect, a federated principal, an action, and a single StringEquals
condition. -/
structure PolicyStatement where
  effect : String
  federatedPrincipal : String
  action : String
  conditionKey : String
  conditionValue : String
deriving Repr, DecidableEq

/-- Modelled from the spec: a trust-policy document — a version and a list
of statements. -/
structure PolicyDocument where
  version : String
  statements : List PolicyStatement
deriving Repr, DecidableEq

/-- Render one statement in the JSON layout used by the source template. -/
def renderStatement (s : PolicyStatement) : String :=
  "    \x7b\n      \"Effect\": \"" ++ s.effect ++
  "\",\n      \"Principal\": \x7b\n        \"Federated\": \"" ++ s.federatedPrincipal ++
  "\"\n      \x7d,\n      \"Action\": \"" ++ s.action ++
  "\",\n      \"Condition\": \x7b\n        \"StringEquals\": \x7b\n          \"" ++ s.conditionKey ++
  "\": \"" ++ s.conditionValue ++
  "\"\n        \x7d\n      \x7d\n    \x7d"

/-- Render a statement list, comma-separated. -/
def renderStatements : List PolicyStatement → String
  | [] => ""
  | [s] => renderStatement s
  | s :: rest => renderStatement s ++ ",\n" ++ renderStatements rest

/-- Render a whole document in the JSON layout used by the source template. -/
def renderPolicyDocument (d : PolicyDocument) : String :=
  "\x7b\n  \"Version\": \"" ++ d.version ++ "\",\n  \"Statement\": [\n" ++
  renderStatements d.statements ++ "\n  ]\n\x7d"

/-- Modelled from the spec: trustPolicy(name, namespace, accountId,
oidcProvider) builds a document with exactly one statement permitting the
federated identity provider to assume the role when its subject claim
equals system:serviceaccount:(namespace):(name). -/
def trustPolicy (name nsp accountId oidcProvider : String) : PolicyDocument :=
  ⟨"2012-10-17",
   [⟨"Allow",
     "arn:aws:iam::" ++ accountId ++ ":oidc-provider/" ++ oidcProvider,
     "sts:AssumeRoleWithWebIdentity",
     oidcProvider ++ ":sub",
     "system:serviceaccount:" ++ nsp ++ ":" ++ name⟩]⟩

/-! ## Validity of namespace/name components (spec §3: non-empty strings
over lowercase alphanumerics and dash) -/

/-- A character valid in a namespace or name component: a lowercase letter,
a digit, or a dash. -/
def isValidRoleChar (c : Char) : Bool :=
  (97 ≤ c.toNat && c.toNat ≤ 122) || (48 ≤ c.toNat && c.toNat ≤ 57) || c.toNat == 45

/-- A valid namespace or name component: non-empty and made only of valid
characters. -/
def isValidName (s : String) : Bool :=
  !s.data.isEmpty && s.data.all isValidRoleChar

/-! ## Concrete fixtures used by counterexamples and witnesses -/

/-- A manager configured like the shipped controller with the default
role prefix. -/
def testManager : Manager :=
  { rolePrefix := "k8s-sa", accountId := "123456789012",
    oidcProvider := "oidc.eks.eu-west-1.amazonaws.com/id/EXAMPLE",
    clusterName := "cluster", controllerName := "iam-service-account-controller" }

/-- A role whose tag set lacks the managed-by tag of this controller. -/
def foreignRole : Role := ⟨[⟨"team", "other"⟩]⟩

/-- A client whose store answers every role-name lookup with the foreign
role, and whose mutating calls succeed. -/
def clientWithForeignRole : AWSClient :=
  { getRole := fun _ => .found foreignRole,
    deleteRoleErr := fun _ => none, createRoleErr := fun _ => none }

/-- A client whose store is empty: every lookup is NoSuchEntity. -/
def clientEmptyStore : AWSClient :=
  { getRole := fun _ => .noSuchEntity "no such role",
    deleteRoleErr := fun _ => none, createRoleErr := fun _ => none }

/-- A lister for which every resource is absent. -/
def listerAbsent : String → String → ListerResult := fun _ _ => .notFound

/-- A ServiceAccount carrying both the managed annotation set to "true"
and a correct role-arn binding annotation. -/
def saManagedTrue : ServiceAccount :=
  ⟨"bar", "foo",
   [(managedAnnotationKey, "true"),
    (roleAnnotationKey, testManager.MakeRoleARN "foo" "bar")]⟩

/-! ## Theorems -/

/-- C5: makeAccessPolicy is a pure function of (name, namespace, accountId,
oidcProvider), and the document it returns is the rendering of a policy
document with exactly one statement: Effect Allow for the federated
principal arn:aws:iam::(accountId):oidc-provider/(oidcProvider) to perform
sts:AssumeRoleWithWebIdentity under the condition that (oidcProvider):sub
string-equals system:serviceaccount:(namespace):(name). -/
theorem makeAccessPolicy_single_statement (m : Manager) (name nsp : String) :
    m.makeAccessPolicy name nsp =
      renderPolicyDocument (trustPolicy name nsp m.accountId m.oidcProvider) ∧
    (trustPolicy name nsp m.accountId m.oidcProvider).statements =
      [⟨"Allow",
        "arn:aws:iam::" ++ m.accountId ++ ":oidc-provider/" ++ m.oidcProvider,
        "sts:AssumeRoleWithWebIdentity",
        m.oidcProvider ++ ":sub",
        "system:serviceaccount:" ++ nsp ++ ":" ++ name⟩] := by
  constructor
  · have h0 : ("\x7b\n  \"Version\": \"2012-10-17\",\n  \"Statement\": [\n    \x7b\n      \"Effect\": \"Allow\",\n      \"Principal\": \x7b\n        \"Federated\": \"arn:aws:iam::" : String) =
      "\x7b\n  \"Version\": \"" ++ "2012-10-17" ++ "\",\n  \"Statement\": [\n" ++ "    \x7b\n      \"Effect\": \"" ++ "Allow" ++ "\",\n      \"Principal\": \x7b\n        \"Federated\": \"" ++ "arn:aws:iam::" := rfl
    have h2 : ("\"\n      \x7d,\n      \"Action\": \"sts:AssumeRoleWithWebIdentity\",\n      \"Condition\": \x7b\n        \"StringEquals\": \x7b\n          \"" : String) =
      "\"\n      \x7d,\n      \"Action\": \"" ++ "sts:AssumeRoleWithWebIdentity" ++ "\",\n      \"Condition\": \x7b\n        \"StringEquals\": \x7b\n          \"" := rfl
    have h3 : (":sub\": \"system:serviceaccount:" : String) =
      ":sub" ++ "\": \"" ++ "system:serviceaccount:" := rfl
    have h4 : ("\"\n        \x7d\n      \x7d\n    \x7d\n  ]\n\x7d" : String) =
      "\"\n        \x7d\n      \x7d\n    \x7d" ++ "\n  ]\n\x7d" := rfl
    simp only [Manager.makeAccessPolicy, renderPolicyDocument, renderStatements,
      renderStatement, trustPolicy]
    rw [h0, h2, h3, h4]
    simp only [← String.append_assoc]
  · rfl

/-- C6: makeIAMRoleName is deterministic and pure; with prefix "k8s-sa" it
maps ("test", "default") to "k8s-sa_default_test", and with the empty
prefix to "default_test" (no leading separator). -/
theorem roleIdentifier_deterministic :
    (∀ (m : Manager) (name nsp : String),
      m.makeIAMRoleName name nsp = m.makeIAMRoleName name nsp) ∧
    Manager.makeIAMRoleName
      ⟨"k8s-sa", "123456789012", "oidc.example", "cluster", "ctrl"⟩
      "test" "default" = "k8s-sa_default_test" ∧
    Manager.makeIAMRoleName
      ⟨"", "123456789012", "oidc.example", "cluster", "ctrl"⟩
      "test" "default" = "default_test" :=
  ⟨fun _ _ _ => rfl, by decide, by decide⟩

/-- C8: a work-queue key that cannot be split into a namespace/name pair is
treated as handled: syncHandler returns nil with no mutating call, and
processNextWorkItem Forgets the key instead of requeueing it. -/
theorem malformed_key_forgotten (m : Manager) (c : AWSClient)
    (lister : String → String → ListerResult) (key : String)
    (hsplit : splitMetaNamespaceKey key = none) :
    syncHandler m c lister key = (none, []) ∧
    processNextWorkItem m c lister (.str key) = .forget := by
  have h1 : syncHandler m c lister key = (none, []) := by
    unfold syncHandler; rw [hsplit]
  refine ⟨h1, ?_⟩
  simp [processNextWorkItem, h1]

/-- C8 witness: the key "a/b/c" cannot be split, is handled with no error
and no call, and is Forgotten. -/
theorem malformed_key_forgotten_witness :
    splitMetaNamespaceKey "a/b/c" = none ∧
    syncHandler testManager clientEmptyStore listerAbsent "a/b/c" = (none, []) ∧
    processNextWorkItem testManager clientEmptyStore listerAbsent (.str "a/b/c") = .forget :=
  ⟨by decide,
   (malformed_key_forgotten testManager clientEmptyStore listerAbsent "a/b/c" (by decide)).1,
   (malformed_key_forgotten testManager clientEmptyStore listerAbsent "a/b/c" (by decide)).2⟩

/-- C10: IsNotFound is true exactly on error values whose dynamic type is
directly *IAMError with code NotFound; a wrapped IAMError yields false
(no unwrapping), as do nil and any non-IAMError error. -/
theorem isNotFound_characterization :
    (∀ e : Option GoError, IsNotFound e = true ↔
      ∃ msg, e = some (.iamError ⟨NotFoundErrorCode, msg⟩)) ∧
    (∀ (msg : String) (inner : GoError),
      IsNotFound (some (.wrapped msg inner)) = false) ∧
    IsNotFound none = false := by
  refine ⟨?_, fun _ _ => rfl, rfl⟩
  intro e
  match e with
  | none => simp [IsNotFound]
  | some (.iamError ⟨co, msg⟩) =>
    simp only [IsNotFound, beq_iff_eq]
    constructor
    · intro h
      exact ⟨msg, by rw [h]⟩
    · rintro ⟨m', hm⟩
      cases hm
      rfl
  | some (.wrapped msg inner) => simp [IsNotFound]
  | some (.basic msg) => simp [IsNotFound]

/-- C2 counterexample: a ServiceAccount whose annotations contain the
binding annotation with the correctly recomputed ARN is nevertheless not
enqueued, because it also carries the annotation iamrole/managed = "true",
which makes enqueueServiceAccount return early. This refutes the claim
that admission depends only on the binding annotation. -/
theorem admission_claim_counterexample :
    saManagedTrue.annotations.lookup roleAnnotationKey =
      some (testManager.MakeRoleARN saManagedTrue.name saManagedTrue.ns) ∧
    enqueueServiceAccount testManager saManagedTrue = none := by decide

/-- C2 amended: the admission filter enqueues the key for a ServiceAccount
iff its annotations do not contain iamrole/managed with value "true" and
do contain eks.amazonaws.com/role-arn with value equal to MakeRoleARN
recomputed from the resource's own name and namespace; a value built for
any other (name, namespace) pair is rejected. -/
theorem enqueue_iff_annotations (m : Manager) (sa : ServiceAccount) :
    enqueueServiceAccount m sa = some (metaNamespaceKeyFunc sa) ↔
      (sa.annotations.lookup managedAnnotationKey ≠ some "true" ∧
       sa.annotations.lookup roleAnnotationKey = some (m.MakeRoleARN sa.name sa.ns)) := by
  unfold enqueueServiceAccount
  by_cases h1 : sa.annotations.lookup managedAnnotationKey = some "true"
  · simp [h1]
  · cases h2 : sa.annotations.lookup roleAnnotationKey with
    | none => simp [h1, h2]
    | some v =>
      by_cases h3 : v = m.MakeRoleARN sa.name sa.ns
      · simp [h1, h2, h3]
      · simp [h1, h2, h3]

/-- Helper: DeleteRole issues at most one mutating call. -/
theorem deleteRole_trace_length (m : Manager) (c : AWSClient) (name nsp : String) :
    (m.DeleteRole c name nsp).2.length ≤ 1 := by
  unfold Manager.DeleteRole
  cases m.GetRole c name nsp with
  | error e =>
    dsimp only
    split <;> simp
  | ok role =>
    dsimp only
    split
    · simp
    · cases c.deleteRoleErr (m.makeIAMRoleName name nsp) <;> simp

/-- Helper: CreateRole issues exactly one mutating call. -/
theorem createRole_trace_length (m : Manager) (c : AWSClient) (name nsp : String) :
    (m.CreateRole c name nsp).2.length = 1 := by
  unfold Manager.CreateRole
  dsimp only
  cases c.createRoleErr (m.makeIAMRoleName name nsp) <;> simp

/-- C9: a single syncHandler invocation issues at most one mutating call to
the role store — one create, or one delete, or nothing, on every path. -/
theorem syncHandler_at_most_one_mutation (m : Manager) (c : AWSClient)
    (lister : String → String → ListerResult) (key : String) :
    (syncHandler m c lister key).2.length ≤ 1 := by
  unfold syncHandler
  cases splitMetaNamespaceKey key with
  | none => simp
  | some p =>
    obtain ⟨nsp, name⟩ := p
    dsimp only
    cases lister nsp name with
    | notFound => exact deleteRole_trace_length m c name nsp
    | otherErr msg => simp
    | found sa =>
      dsimp only
      cases m.GetRole c name nsp with
      | error e =>
        dsimp only
        split
        · exact Nat.le_of_eq (createRole_trace_length m c name nsp)
        · simp
      | ok role => simp

/-- Helper: an IAMError with code NotFound satisfies IsNotFound. -/
theorem isNotFound_notFoundCode (msg : String) :
    IsNotFound (some (.iamError ⟨NotFoundErrorCode, msg⟩)) = true := by
  simp [IsNotFound]

/-- Helper: an IAMError with code Other does not satisfy IsNotFound. -/
theorem isNotFound_otherCode (msg : String) :
    IsNotFound (some (.iamError ⟨OtherErrorCode, msg⟩)) = false := by
  simp [IsNotFound, NotFoundErrorCode, OtherErrorCode]

/-- Helper: when the fetched role is not managed, DeleteRole returns the
NotManaged error and issues no call. -/
theorem deleteRole_refuses_unmanaged (m : Manager) (c : AWSClient) (name nsp : String)
    (r : Role) (hget : c.getRole (m.makeIAMRoleName name nsp) = .found r)
    (hman : m.IsManaged r = false) :
    m.DeleteRole c name nsp =
      (some (.iamError ⟨NotManagedErrorCode, "Role not managed by controller"⟩), []) := by
  unfold Manager.DeleteRole Manager.GetRole
  rw [hget]
  simp [hman]

/-- Helper: a delete call in a syncHandler trace implies the store held a
managed role under the deleted name. -/
theorem syncHandler_delete_call (m : Manager) (c : AWSClient)
    (lister : String → String → ListerResult) (key rn : String)
    (h : ApiCall.deleteRole rn ∈ (syncHandler m c lister key).2) :
    ∃ r, c.getRole rn = .found r ∧ m.IsManaged r = true := by
  unfold syncHandler at h
  cases hs : splitMetaNamespaceKey key with
  | none => rw [hs] at h; simp at h
  | some p =>
    obtain ⟨nsp, name⟩ := p
    rw [hs] at h
    dsimp only at h
    cases hl : lister nsp name with
    | otherErr msg => rw [hl] at h; simp at h
    | found sa =>
      rw [hl] at h
      dsimp only at h
      unfold Manager.GetRole at h
      cases hg : c.getRole (m.makeIAMRoleName name nsp) with
      | found r => rw [hg] at h; simp at h
      | noSuchEntity msg =>
        rw [hg] at h
        simp only [isNotFound_notFoundCode, if_true] at h
        unfold Manager.CreateRole at h
        dsimp only at h
        cases hcr : c.createRoleErr (m.makeIAMRoleName name nsp) <;>
          rw [hcr] at h <;> simp at h
      | apiError msg =>
        rw [hg] at h
        simp only [isNotFound_otherCode, if_false] at h
        simp at h
    | notFound =>
      rw [hl] at h
      unfold Manager.DeleteRole Manager.GetRole at h
      cases hg : c.getRole (m.makeIAMRoleName name nsp) with
      | noSuchEntity msg =>
        rw [hg] at h
        simp only [isNotFound_notFoundCode, if_true] at h
        simp at h
      | apiError msg =>
        rw [hg] at h
        simp only [isNotFound_otherCode, if_false] at h
        simp at h
      | found r =>
        rw [hg] at h
        by_cases hm : m.IsManaged r
        · simp only [hm, Bool.not_true, Bool.false_eq_true, if_false] at h
          cases hd : c.deleteRoleErr (m.makeIAMRoleName name nsp) <;>
            rw [hd] at h <;> simp at h <;>
            exact ⟨r, by rw [h]; exact hg, hm⟩
        · simp only [Bool.not_eq_true] at hm
          simp [hm] at h

/-- C1: for a role R in the store whose tags do not mark it as managed by
this controller, no DeleteRole call (directly, or through reconciling any
key any number of times) ever reaches the role store's delete operation:
DeleteRole returns without issuing a delete whenever the fetched role is
not managed. -/
theorem no_cross_tenant_delete (m : Manager) (c : AWSClient)
    (lister : String → String → ListerResult) (rn : String) (r : Role)
    (hget : c.getRole rn = .found r) (hman : m.IsManaged r = false) :
    (∀ name nsp, m.makeIAMRoleName name nsp = rn →
      (m.DeleteRole c name nsp).2 = []) ∧
    (∀ key n, ApiCall.deleteRole rn ∉
      (List.replicate n (syncHandler m c lister key).2).flatten) := by
  constructor
  · intro name nsp hrn
    have hg' : c.getRole (m.makeIAMRoleName name nsp) = .found r := by
      rw [hrn]; exact hget
    rw [deleteRole_refuses_unmanaged m c name nsp r hg' hman]
  · intro key n hmem
    rw [List.mem_flatten] at hmem
    obtain ⟨l, hl, hml⟩ := hmem
    rw [List.eq_of_mem_replicate hl] at hml
    obtain ⟨r', hg', hm'⟩ := syncHandler_delete_call m c lister key rn hml
    rw [hget] at hg'
    injection hg' with hr
    rw [← hr] at hm'
    rw [hman] at hm'
    exact Bool.false_ne_true hm'

/-- C1 witness: a foreign role under the reconciled name is never deleted,
neither by DeleteRole directly nor across three reconciliations. -/
theorem no_cross_tenant_delete_witness :
    clientWithForeignRole.getRole "k8s-sa_bar_foo" = .found foreignRole ∧
    testManager.IsManaged foreignRole = false ∧
    (testManager.DeleteRole clientWithForeignRole "foo" "bar").2 = [] ∧
    ApiCall.deleteRole "k8s-sa_bar_foo" ∉
      (List.replicate 3
        (syncHandler testManager clientWithForeignRole listerAbsent "bar/foo").2).flatten :=
  ⟨rfl, by decide,
   (no_cross_tenant_delete testManager clientWithForeignRole listerAbsent
     "k8s-sa_bar_foo" foreignRole rfl (by decide)).1 "foo" "bar" (by decide),
   (no_cross_tenant_delete testManager clientWithForeignRole listerAbsent
     "k8s-sa_bar_foo" foreignRole rfl (by decide)).2 "bar/foo" 3⟩

/-- C3 counterexample: on the deletion path with an existing unmanaged
role, syncHandler does not return nil: it returns the NotManaged error, and
processNextWorkItem re-adds the key with rate limiting instead of
Forgetting it. -/
theorem unmanaged_delete_claim_counterexample :
    (syncHandler testManager clientWithForeignRole listerAbsent "bar/foo").1 =
      some (.iamError ⟨NotManagedErrorCode, "Role not managed by controller"⟩) ∧
    processNextWorkItem testManager clientWithForeignRole listerAbsent (.str "bar/foo") =
      .addRateLimited "bar/foo" := by decide

/-- C3 amended: on the deletion path (resource absent, role found but not
managed), DeleteRole issues no delete and returns the NotManaged error;
syncHandler propagates that error, so the key is requeued with backoff
(AddRateLimited), not Forgotten. -/
theorem syncHandler_unmanaged_requeues (m : Manager) (c : AWSClient)
    (lister : String → String → ListerResult) (key nsp name : String) (r : Role)
    (hsplit : splitMetaNamespaceKey key = some (nsp, name))
    (hlister : lister nsp name = .notFound)
    (hget : c.getRole (m.makeIAMRoleName name nsp) = .found r)
    (hman : m.IsManaged r = false) :
    syncHandler m c lister key =
      (some (.iamError ⟨NotManagedErrorCode, "Role not managed by controller"⟩), []) ∧
    processNextWorkItem m c lister (.str key) = .addRateLimited key := by
  have h1 : syncHandler m c lister key =
      (some (.iamError ⟨NotManagedErrorCode, "Role not managed by controller"⟩), []) := by
    unfold syncHandler
    rw [hsplit]
    dsimp only
    rw [hlister]
    exact deleteRole_refuses_unmanaged m c name nsp r hget hman
  exact ⟨h1, by simp [processNextWorkItem, h1]⟩

/-- C3 witness: the amended behavior at a concrete unmanaged role. -/
theorem syncHandler_unmanaged_requeues_witness :
    splitMetaNamespaceKey "bar/foo" = some ("bar", "foo") ∧
    testManager.IsManaged foreignRole = false ∧
    processNextWorkItem testManager clientWithForeignRole listerAbsent (.str "bar/foo") =
      .addRateLimited "bar/foo" :=
  ⟨by decide, by decide,
   (syncHandler_unmanaged_requeues testManager clientWithForeignRole listerAbsent
     "bar/foo" "bar" "foo" foreignRole (by decide) rfl rfl (by decide)).2⟩

/-- C7: when the resource is absent and GetRole reports NotFound for the
key's identifier, DeleteRole issues no delete call and returns nil, the
reconciliation succeeds, and any number of repetitions issues no call
at all. -/
theorem idempotent_deletion (m : Manager) (c : AWSClient)
    (lister : String → String → ListerResult) (key nsp name msg : String)
    (hsplit : splitMetaNamespaceKey key = some (nsp, name))
    (hlister : lister nsp name = .notFound)
    (hget : m.GetRole c name nsp = .error (.iamError ⟨NotFoundErrorCode, msg⟩)) :
    m.DeleteRole c name nsp = (none, []) ∧
    syncHandler m c lister key = (none, []) ∧
    ∀ n, (List.replicate n (syncHandler m c lister key).2).flatten = [] := by
  have hdel : m.DeleteRole c name nsp = (none, []) := by
    unfold Manager.DeleteRole
    rw [hget]
    simp [isNotFound_notFoundCode]
  have hsync : syncHandler m c lister key = (none, []) := by
    unfold syncHandler
    rw [hsplit]
    dsimp only
    rw [hlister]
    exact hdel
  refine ⟨hdel, hsync, fun n => ?_⟩
  rw [hsync]
  simp

/-- C7 witness: an absent resource against an empty store deletes nothing
and succeeds, across three repetitions. -/
theorem idempotent_deletion_witness :
    testManager.GetRole clientEmptyStore "foo" "bar" =
      .error (.iamError ⟨NotFoundErrorCode, "no such role"⟩) ∧
    syncHandler testManager clientEmptyStore listerAbsent "bar/foo" = (none, []) ∧
    (List.replicate 3
      (syncHandler testManager clientEmptyStore listerAbsent "bar/foo").2).flatten = [] :=
  ⟨rfl,
   (idempotent_deletion testManager clientEmptyStore listerAbsent
     "bar/foo" "bar" "foo" "no such role" (by decide) rfl rfl).2.1,
   (idempotent_deletion testManager clientEmptyStore listerAbsent
     "bar/foo" "bar" "foo" "no such role" (by decide) rfl rfl).2.2 3⟩

/-- Helper: equal strings have equal character lists, and conversely. -/
theorem string_data_inj {s t : String} (h : s.data = t.data) : s = t := by
  cases s
  cases t
  cases h
  rfl

/-- Helper: a list written as (no-underscore part) ++ underscore ++ rest
splits uniquely. -/
theorem sep_split_unique : ∀ (a₁ : List Char) {b₁ a₂ b₂ : List Char},
    a₁ ++ '_' :: b₁ = a₂ ++ '_' :: b₂ → '_' ∉ a₁ → '_' ∉ a₂ →
    a₁ = a₂ ∧ b₁ = b₂ := by
  intro a₁
  induction a₁ with
  | nil =>
    intro b₁ a₂ b₂ h h1 h2
    cases a₂ with
    | nil => simpa using h
    | cons c t =>
      simp only [List.nil_append, List.cons_append, List.cons.injEq] at h
      exact absurd (h.1 ▸ List.mem_cons_self c t) h2
  | cons c t ih =>
    intro b₁ a₂ b₂ h h1 h2
    cases a₂ with
    | nil =>
      simp only [List.cons_append, List.nil_append, List.cons.injEq] at h
      exact absurd (h.1 ▸ List.mem_cons_self c t) h1
    | cons c' t' =>
      simp only [List.cons_append, List.cons.injEq] at h
      obtain ⟨hc, hrest⟩ := h
      have h1' : '_' ∉ t := fun hm => h1 (List.mem_cons_of_mem _ hm)
      have h2' : '_' ∉ t' := fun hm => h2 (List.mem_cons_of_mem _ hm)
      obtain ⟨e1, e2⟩ := ih hrest h1' h2'
      exact ⟨by rw [hc, e1], e2⟩

/-- Helper: a valid component contains no underscore. -/
theorem valid_no_underscore {s : String} (h : isValidName s = true) :
    '_' ∉ s.data := by
  intro hmem
  have hall : s.data.all isValidRoleChar = true := by
    simp only [isValidName, Bool.and_eq_true] at h
    exact h.2
  have hc : isValidRoleChar '_' = true := List.all_eq_true.mp hall _ hmem
  have hf : isValidRoleChar '_' = false := by decide
  rw [hf] at hc
  exact Bool.false_ne_true hc

/-- Helper: the underscore separator string as a character list. -/
theorem underscore_data : ("_" : String).data = ['_'] := rfl

/-- C4: for a fixed prefix, the role-name mapping is injective on valid
inputs: components are non-empty strings over lowercase alphanumerics and
dash, so the embedded underscores split uniquely and two distinct
(namespace, name) pairs — in particular two distinct namespaces — never
collide. -/
theorem makeIAMRoleName_injective (m : Manager) (ns₁ n₁ ns₂ n₂ : String)
    (h₁ : isValidName ns₁ = true) (h₂ : isValidName n₁ = true)
    (h₃ : isValidName ns₂ = true) (h₄ : isValidName n₂ = true)
    (hne : (ns₁, n₁) ≠ (ns₂, n₂)) :
    m.makeIAMRoleName n₁ ns₁ ≠ m.makeIAMRoleName n₂ ns₂ := by
  intro heq
  apply hne
  unfold Manager.makeIAMRoleName at heq
  by_cases hp : m.rolePrefix = ""
  · rw [if_pos hp, if_pos hp] at heq
    have hd := congrArg String.data heq
    simp only [String.data_append, underscore_data, List.append_assoc,
      List.singleton_append] at hd
    obtain ⟨e1, e2⟩ := sep_split_unique ns₁.data hd
      (valid_no_underscore h₁) (valid_no_underscore h₃)
    rw [string_data_inj e1, string_data_inj e2]
  · rw [if_neg hp, if_neg hp] at heq
    have hd := congrArg String.data heq
    simp only [String.data_append, underscore_data, List.append_assoc,
      List.singleton_append] at hd
    have hd' := List.append_cancel_left hd
    have hd'' : ns₁.data ++ '_' :: n₁.data = ns₂.data ++ '_' :: n₂.data := by
      injection hd'
    obtain ⟨e1, e2⟩ := sep_split_unique ns₁.data hd''
      (valid_no_underscore h₁) (valid_no_underscore h₃)
    rw [string_data_inj e1, string_data_inj e2]

/-- C4 witness: distinct namespaces with the same name yield distinct role
names under the default prefix. -/
theorem makeIAMRoleName_injective_witness :
    isValidName "default" = true ∧ isValidName "foo" = true ∧
    isValidName "other" = true ∧ ("default", "foo") ≠ (("other", "foo") : String × String) ∧
    testManager.makeIAMRoleName "foo" "default" ≠ testManager.makeIAMRoleName "foo" "other" :=
  ⟨by decide, by decide, by decide, by decide,
   makeIAMRoleName_injective testManager "default" "foo" "other" "foo"
     (by decide) (by decide) (by decide) (by decide) (by decide)⟩

end SAIamRole
